import Mathlib

/-!
# Verification of the unrpyc driver (`unrpyc.py`)

A shallow embedding of the per-file decompilation driver: the rpyc
archive reader (`read_ast_from_file`), the per-file pipeline
(`decompile_rpyc`, `extract_translations`), the worker wrapper with its
outcome classification (`worker`), and the orcestration in `main`
(pre-flight argument validation, worker dispatch, translation merging).

Bytes are modelled as `List Nat`, Python dicts as insertion-ordered
association lists, and the filesystem as a finite map from paths to byte
contents.  External collaborators that live outside this file's source
(`zlib.decompress`, `pickle_safe_loads` and friends from
`decompiler.renpycompat`, `deobfuscate.read_ast`, `astdump.pprint`,
`decompiler.pprint`) are fields of an `Externals` record, so theorems
quantify over their behaviour; the exception taxonomy they raise is
modelled from the spec (a `DecodeErr` from the safe deserializer is its
own exception type, distinct from `BadRpycException` which is defined in
`unrpyc.py` itself).
-/

namespace Unrpyc

/-! ## Python dicts as insertion-ordered association lists -/

/-- `d[k] = v` on a Python dict: replace in place when the key is
present, append otherwise (insertion order is preserved). -/
def dictSet {α β : Type} [DecidableEq α] (d : List (α × β)) (k : α) (v : β) :
    List (α × β) :=
  if d.any (fun q => decide (q.1 = k)) then
    d.map (fun q => if q.1 = k then (k, v) else q)
  else d ++ [(k, v)]

/-- Dict lookup: the value of the first (hence unique) entry with key `k`. -/
def dictGet {α β : Type} [DecidableEq α] (d : List (α × β)) (k : α) : Option β :=
  (d.find? (fun q => decide (q.1 = k))).map (fun q => q.2)

/-- Python `d.update(e)`: fold every entry of `e` into `d`, later entries
overwriting earlier values at the same key. -/
def dictUpdate {α β : Type} [DecidableEq α] (d e : List (α × β)) : List (α × β) :=
  e.foldl (fun acc q => dictSet acc q.1 q.2) d

/-! ## Data model -/

/-- A translation dictionary (string keys to string values). -/
abbrev Dict := List (String × String)

/-- The value a statement AST decodes to.  Its internal structure is
irrelevant to the driver, which only passes it between collaborators. -/
structure Ast where
  id : Nat
deriving DecidableEq

/-- A per-file translation extraction result: the pickled dialogue
mapping together with the collected strings table
(`pickle_safe_dumps(translator.dialogue), translator.strings`). -/
abbrev Bundle := List Nat × Dict

/-- Per-file mutable run record (`class Context` in `unrpyc.py`). -/
structure Context where
  log_contents : List String := []
  state : Option String := none
  value : Option Bundle := none
deriving DecidableEq

def Context.log (c : Context) (message : String) : Context :=
  { c with log_contents := c.log_contents ++ [message] }

def Context.set_state (c : Context) (s : String) : Context :=
  { c with state := some s }

def Context.set_result (c : Context) (v : Option Bundle) : Context :=
  { c with value := v }

/-- Modelled from the spec: the typed failure of the safe-deserialization
boundary (`DecodeError{BadReference, DisallowedType, Truncated, ...}`),
raised by `pickle_safe_loads` in `decompiler.renpycompat`, whose source
is outside this file.  It is a distinct exception type from
`BadRpycException`. -/
inductive DecodeErr
  | badReference
  | disallowedType (name : String)
  | truncated
  | other (msg : String)
deriving DecidableEq

/-- The Python exceptions the driver can observe.  All variants derive
from `Exception`; only `badRpyc` is the `BadRpycException` class that
`unrpyc.py` defines and `worker` catches specially. -/
inductive PyErr
  | badRpyc (msg : String)
  | decodeError (e : DecodeErr)
  | structError
  | typeError
  | ioError
  | nameError
  | pipelineError (msg : String)
deriving DecidableEq

/-- A path, as the driver uses it: a stem plus a final suffix. -/
structure PyPath where
  stem : String
  suffix : String
deriving DecidableEq

def PyPath.with_suffix (p : PyPath) (ext : String) : PyPath :=
  { p with suffix := ext }

def PyPath.name (p : PyPath) : String := p.stem ++ p.suffix

/-- The filesystem: a finite map from paths to byte contents. -/
structure FS where
  files : List (PyPath × List Nat)
deriving DecidableEq

def FS.read (fs : FS) (p : PyPath) : Option (List Nat) :=
  (fs.files.find? (fun q => decide (q.1 = p))).map (fun q => q.2)

def FS.exists_file (fs : FS) (p : PyPath) : Bool :=
  (fs.read p).isSome

def FS.write (fs : FS) (p : PyPath) (content : List Nat) : FS :=
  { files := dictSet fs.files p content }

/-- The `decompiler.Options` bag handed to the reverse compiler. -/
structure Options where
  log : List String
  translator : Option (Option String × Dict × Dict)
  init_offset : Bool
  sl_custom_names : Option (List (String × String))

/-- External collaborators of the driver.  Their code lives outside this
file (zlib, `decompiler.renpycompat`, `deobfuscate`, `astdump`,
`decompiler`), so the driver is verified for every behaviour of these
functions.  `decompress` returns `none` for any zlib error;
`pickle_safe_loads` fails with a typed `DecodeErr`; the pprint
collaborators may raise arbitrary exceptions, and `decompiler_pprint`
may also append to the log it is handed (it receives
`context.log_contents` by reference through `Options`). -/
structure Externals where
  decompress : List Nat → Option (List Nat)
  pickle_detect_python2 : List Nat → Bool
  pickle_safe_loads : List Nat → Except DecodeErr (Nat × Ast)
  deobfuscate_read : List Nat → Context → Except (PyErr × Context) (Ast × Context)
  astdump_pprint : Ast → Bool → Bool → Except PyErr (List Nat)
  decompiler_pprint : Ast → Options → Except PyErr (List String × List Nat)
  pickle_loads : List Nat → Dict
  pickle_loads_triple : List Nat → (Option String × Dict × Dict)
  pickle_safe_dump_triple : (Option String × Dict × Dict) → List Nat

/-! ## Archive reader (`read_ast_from_file`) -/

/-- The 10-byte v2 magic marker, `b"RENPY RPC2"`. -/
def magic : List Nat := [82, 69, 78, 80, 89, 32, 82, 80, 67, 50]

/-- Little-endian decoding of a 4-byte unsigned integer, as
`struct.unpack("I", ...)` computes it. -/
def decodeU32 (b0 b1 b2 b3 : Nat) : Nat :=
  b0 + 256 * b1 + 65536 * b2 + 16777216 * b3

/-- Little-endian encoding of a `u32` into 4 bytes. -/
def u32le (n : Nat) : List Nat :=
  [n % 256, n / 256 % 256, n / 65536 % 256, n / 16777216 % 256]

def slotWarn : String :=
  "Warning: Encountered an unexpected slot structure. It is possible the file header structure has been changed."

def slotNotFoundMsg : String :=
  "Unable to find the right slot to load from the rpyc file. The file header structure has been changed."

def zlibFailMsg : String :=
  "Did not find a zlib compressed blob where it was expected. Either the header has been modified or the file structure has been changed."

def legacyWarn (version : String) : String :=
  "Warning: analysis found signs that this .rpyc file was generated by renpy version "
    ++ version ++ " or below, while this unrpyc version targets renpy version 8."

/-- The v2 slot-table loop of `read_ast_from_file`.  `rem` is the unread
tail of the file (`raw_contents[position:]`): each iteration unpacks a
12-byte record `(slot, start, length)`; a short read is `struct.error`;
`slot == 0` terminates; a slot id differing from the expected ascending
sequence logs `slotWarn` once (guarded by `have_errored`); the chunk
bytes are taken from the record's own absolute `start`/`length` into the
whole file.  `fuel` is the remaining iteration budget of
`range(1, 0xFFFFFFFF)`: when it runs out the loop simply ends. -/
def parseSlots (raw : List Nat) :
    List Nat → Nat → Nat → Bool → List (Nat × List Nat) → Context →
    Except (PyErr × Context) (List (Nat × List Nat) × Context)
  | rem, fuel, expected_slot, have_errored, chunks, ctx =>
    if fuel = 0 then .ok (chunks, ctx)
    else
      match rem with
      | a0 :: a1 :: a2 :: a3 :: b0 :: b1 :: b2 :: b3 :: c0 :: c1 :: c2 :: c3 :: rest =>
        let slot := decodeU32 a0 a1 a2 a3
        let start := decodeU32 b0 b1 b2 b3
        let length := decodeU32 c0 c1 c2 c3
        if slot = 0 then .ok (chunks, ctx)
        else
          let have2 := have_errored || decide (¬ slot = expected_slot)
          let ctx2 := if ¬ slot = expected_slot ∧ have_errored = false then ctx.log slotWarn else ctx
          parseSlots raw rest (fuel - 1) (expected_slot + 1) have2
            (dictSet chunks slot ((raw.drop start).take length)) ctx2
      | _ => .error (.structError, ctx)

/-- The shared tail of `read_ast_from_file` after the payload bytes are
selected: zlib inflate (failure is `BadRpycException`), the legacy
version diagnostic, and the safe unpickle `_, stmts =
pickle_safe_loads(contents)` (failure is a `DecodeErr`, not a
`BadRpycException`). -/
def decodePayload (ext : Externals) (contents : List Nat) (is_rpyc_v1 : Bool)
    (context : Context) : Except (PyErr × Context) (Ast × Context) :=
  match ext.decompress contents with
  | none => .error (.badRpyc zlibFailMsg, context)
  | some inflated =>
    let context :=
      if is_rpyc_v1 || ext.pickle_detect_python2 inflated then
        context.log (legacyWarn (if is_rpyc_v1 then "6" else "7"))
      else context
    match ext.pickle_safe_loads inflated with
    | .error e => .error (.decodeError e, context)
    | .ok (_, stmts) => .ok (stmts, context)

/-- `read_ast_from_file`: no magic marker means a v1 raw blob; otherwise
parse the v2 slot table starting at offset 10 (at most `0xFFFFFFFE`
records), require slot 1, and decode its bytes. -/
def read_ast_from_file (ext : Externals) (raw_contents : List Nat)
    (context : Context) : Except (PyErr × Context) (Ast × Context) :=
  if magic.isPrefixOf raw_contents then
    match parseSlots raw_contents (raw_contents.drop 10) 0xFFFFFFFE 1 false [] context with
    | .error (e, context2) => .error (e, context2)
    | .ok (chunks, context2) =>
      match dictGet chunks 1 with
      | none => .error (.badRpyc slotNotFoundMsg, context2)
      | some contents => decodePayload ext contents false context2
  else
    decodePayload ext raw_contents true context

/-! ## Per-file pipeline (`decompile_rpyc`, `extract_translations`) -/

/-- The output-extension table at the top of `decompile_rpyc`: dump mode
always writes `.txt`; otherwise `.rpyc` maps to `.rpy` and `.rpymc` to
`.rpym`.  Any other suffix leaves Python's local `ext` unbound, so the
subsequent use raises `NameError` (unreachable for worklist files, which
are filtered to those two suffixes). -/
def output_ext (dump : Bool) (suffix : String) : Except PyErr String :=
  if dump then .ok ".txt"
  else if suffix = ".rpyc" then .ok ".rpy"
  else if suffix = ".rpymc" then .ok ".rpym"
  else .error .nameError

def decompilingMsg (inp out : PyPath) : String :=
  "Decompiling " ++ inp.name ++ " to " ++ out.name ++ "..."

def skipMsg : String := "Target file exists already! Skipping."

/-- `decompile_rpyc`: derive the output path, log, return with state
`skip` when the output already exists and `overwrite` is false (before
the input is even opened), otherwise read and decode the input
(`deobfuscate.read_ast` when `try_harder`, `read_ast_from_file`
otherwise) and write the dump or the reverse-compiled source.  Opening
the output with mode `'w'` truncates it before the pretty printer runs.
Errors carry the context (its log survives) and the filesystem. -/
def decompile_rpyc (ext : Externals) (input_filename : PyPath) (context : Context)
    (fs : FS) (overwrite : Bool) (try_harder : Bool) (dump : Bool)
    (comparable : Bool) (no_pyexpr : Bool)
    (translator : Option (Option String × Dict × Dict))
    (init_offset : Bool) (sl_custom_names : Option (List (String × String))) :
    Except (PyErr × Context × FS) (Context × FS) :=
  match output_ext dump input_filename.suffix with
  | .error e => .error (e, context, fs)
  | .ok extn =>
    let out_filename := input_filename.with_suffix extn
    let context := context.log (decompilingMsg input_filename out_filename)
    if !overwrite && fs.exists_file out_filename then
      .ok ((context.log skipMsg).set_state "skip", fs)
    else
      match fs.read input_filename with
      | none => .error (.ioError, context, fs)
      | some raw =>
        match (if try_harder then ext.deobfuscate_read raw context
               else read_ast_from_file ext raw context) with
        | .error (e, context2) => .error (e, context2, fs)
        | .ok (ast, context2) =>
          let fs := fs.write out_filename []
          if dump then
            match ext.astdump_pprint ast comparable no_pyexpr with
            | .error e => .error (e, context2, fs)
            | .ok content =>
              .ok (context2.set_state "ok", fs.write out_filename content)
          else
            match ext.decompiler_pprint ast
                ⟨context2.log_contents, translator, init_offset, sl_custom_names⟩ with
            | .error e => .error (e, context2, fs)
            | .ok (extra_log, content) =>
              .ok (({ context2 with
                        log_contents := context2.log_contents ++ extra_log }).set_state "ok",
                   fs.write out_filename content)

def extractingMsg (inp : PyPath) : String :=
  "Extracting translations from " ++ inp.name ++ "..."

/-- `extract_translations`: logs, opens the input, then executes
`ast = read_ast_from_file(in_file)`.  That call passes a single argument
while `read_ast_from_file` requires two positional parameters
`(in_file, context)`, so Python raises `TypeError` at the call site:
no AST is ever read and the rest of the body (translator construction,
`translate_dialogue`, `pickle_safe_dumps`) is unreachable. -/
def extract_translations (ext : Externals) (input_filename : PyPath)
    (language : Option String) (context : Context) (fs : FS) :
    Except (PyErr × Context × FS) (Bundle × Context × FS) :=
  let context := context.log (extractingMsg input_filename)
  match fs.read input_filename with
  | none => .error (.ioError, context, fs)
  | some _raw => .error (.typeError, context, fs)

/-! ## Worker -/

/-- The parsed command-line arguments that reach the workers. -/
structure Args where
  clobber : Bool
  try_harder : Bool
  dump : Bool
  processes : Nat
  translation_file : Option PyPath
  write_translation_file : Option PyPath
  language : Option String
  comparable : Bool
  no_pyexpr : Bool
  init_offset : Bool
  sl_custom_names : Option (List (String × String))
  translations : List Nat := []
deriving DecidableEq

/-- The body of `worker`'s `try` block: translation extraction when
`write_translation_file` is set, otherwise decompilation (building the
translator from the preloaded `args.translations` bytes when a
translation file was given).  The successful result is what
`context.set_result` receives: a bundle in extraction mode, Python
`None` in decompile mode (`decompile_rpyc` returns nothing). -/
def worker_inner (ext : Externals) (args : Args) (filename : PyPath) (fs : FS) :
    Except (PyErr × Context × FS) (Option Bundle × Context × FS) :=
  let context : Context := {}
  match args.write_translation_file with
  | some _ =>
    match extract_translations ext filename args.language context fs with
    | .error e => .error e
    | .ok (b, c, f) => .ok (some b, c, f)
  | none =>
    let translator :=
      match args.translation_file with
      | some _ => some (ext.pickle_loads_triple args.translations)
      | none => none
    match decompile_rpyc ext filename context fs args.clobber args.try_harder
        args.dump args.comparable args.no_pyexpr translator args.init_offset
        args.sl_custom_names with
    | .error e => .error e
    | .ok (c, f) => .ok (none, c, f)

/-- A rendering of `traceback.format_exc()` for the raised exception. -/
def format_exc (e : PyErr) : String :=
  "Traceback (most recent call last): " ++
    (match e with
     | .badRpyc m => "BadRpycException: " ++ m
     | .decodeError _ => "DecodeError"
     | .structError => "struct.error: unpack requires a buffer of 12 bytes"
     | .typeError => "TypeError: read_ast_from_file() missing 1 required positional argument: context"
     | .ioError => "OSError"
     | .nameError => "NameError: name ext is not defined"
     | .pipelineError m => m)

def headerErrMsg (fn : PyPath) : String :=
  "Error while trying to read the header of " ++ fn.name ++ ":"

def decompErrMsg (fn : PyPath) : String :=
  "Error while decompiling " ++ fn.name ++ ":"

/-- `worker`: run the pipeline on one file with a fresh `Context`;
`BadRpycException` is caught and classified as state `spoofed`, any
other `Exception` as state `fail`, both with the failure header and the
traceback appended to the log; the context is always returned. -/
def worker (ext : Externals) (args : Args) (filename : PyPath) (fs : FS) :
    Context × FS :=
  match worker_inner ext args filename fs with
  | .ok (result, c, f) => (c.set_result result, f)
  | .error (e, c, f) =>
    match e with
    | .badRpyc _ =>
      (((c.set_state "spoofed").log (headerErrMsg filename)).log (format_exc e), f)
    | _ =>
      (((c.set_state "fail").log (decompErrMsg filename)).log (format_exc e), f)

/-! ## `main`: pre-flight validation, dispatch, aggregation -/

/-- The three fatal pre-flight argument checks of `main`, in source
order. -/
inductive ArgErrKind
  | comparableNoDump
  | translationCombo
  | translationExists
deriving DecidableEq

/-- Whether `args.write_translation_file` names an existing file. -/
def wtfExists (args : Args) (fs : FS) : Bool :=
  match args.write_translation_file with
  | some p => fs.exists_file p
  | none => false

/-- The pre-flight validation of `main`: `comparable`/`no_pyexpr`
require `dump`; the translation feature excludes `try_harder` and
`dump`; a pre-existing output translation file requires `clobber`.
Each failing check raises `ArgumentParser.error`, aborting the run
before any input file is touched. -/
def preflight (args : Args) (fs : FS) : Option ArgErrKind :=
  if (args.no_pyexpr || args.comparable) && !args.dump then
    some .comparableNoDump
  else if (args.try_harder || args.dump) &&
      (args.write_translation_file.isSome || args.translation_file.isSome ||
        args.language.isSome) then
    some .translationCombo
  else if args.write_translation_file.isSome && !args.clobber && wtfExists args fs then
    some .translationExists
  else
    none

/-- File size used by the big-files-first sort (`x.stat().st_size`). -/
def fileSize (fs : FS) (p : PyPath) : Nat :=
  ((fs.read p).getD []).length

/-- Stable insertion into a size-descending list. -/
def insertDesc (fs : FS) (x : PyPath) : List PyPath → List PyPath
  | [] => [x]
  | y :: ys =>
    if fileSize fs y < fileSize fs x then x :: y :: ys
    else y :: insertDesc fs x ys

/-- `worklist.sort(key=lambda x: x.stat().st_size, reverse=True)`. -/
def sortBySizeDesc (fs : FS) (l : List PyPath) : List PyPath :=
  l.foldr (insertDesc fs) []

/-- Run the workers over the worklist in submission order, threading the
filesystem.  The pool path (`pool.imap(worker, worklist, 1)`) delivers
results in the same submission order and each worker only touches its
own output file, so the same sequential model covers both branches. -/
def runWorkers (ext : Externals) (args : Args) (fs : FS) :
    List PyPath → List Context × FS
  | [] => ([], fs)
  | fn :: rest =>
    let step := worker ext args fn fs
    let tail := runWorkers ext args step.2 rest
    (step.1 :: tail.1, tail.2)

/-- The translation-merge loop of `main`: for each worker result whose
`value` is set (falsy values are skipped), unpickle the dialogue and
fold both mappings into the combined dicts with `dict.update`. -/
def mergeResults (ext : Externals) (results : List Context) : Dict × Dict :=
  results.foldl
    (fun acc r =>
      match r.value with
      | none => acc
      | some b => (dictUpdate acc.1 (ext.pickle_loads b.1), dictUpdate acc.2 b.2))
    ([], [])

/-- The observable outcome of a `main` run. -/
inductive MainOutcome
  | argError (k : ArgErrKind)
  | noFiles
  | ran (usedPool : Bool) (results : List Context) (fs : FS)
      (translationOut : Option (Option String × Dict × Dict))
deriving DecidableEq

def MainOutcome.is_arg_error : MainOutcome → Bool
  | .argError _ => true
  | _ => false

def MainOutcome.pool_used : MainOutcome → Bool
  | .ran e _ _ _ => e
  | _ => false

def MainOutcome.contexts : MainOutcome → List Context
  | .ran _ r _ _ => r
  | _ => []

def MainOutcome.translation_out : MainOutcome → Option (Option String × Dict × Dict)
  | .ran _ _ _ t => t
  | _ => none

/-- `main`, from argument validation onward (CLI parsing and the
glob/directory traversal that builds `worklist` are upstream): pre-flight
checks abort the run; the translation substitution file is loaded into
`args.translations`; an empty worklist short-circuits; otherwise the
worklist is sorted big-files-first, the pool is engaged exactly when
`args.processes > 1 and len(worklist) > 5`, the workers run, and in
translation mode the merged bundle is written once at the end. -/
def main (ext : Externals) (args : Args) (fs : FS) (worklist : List PyPath) :
    MainOutcome :=
  match preflight args fs with
  | some k => .argError k
  | none =>
    let args2 :=
      match args.translation_file with
      | some tf => { args with translations := (fs.read tf).getD [] }
      | none => args
    if worklist.isEmpty then .noFiles
    else
      let sorted := sortBySizeDesc fs worklist
      let engaged := decide (1 < args2.processes) && decide (5 < sorted.length)
      let outcome := runWorkers ext args2 fs sorted
      match args2.write_translation_file with
      | some p =>
        let merged := mergeResults ext outcome.1
        .ran engaged outcome.1
          (outcome.2.write p
            (ext.pickle_safe_dump_triple (args2.language, merged.1, merged.2)))
          (some (args2.language, merged.1, merged.2))
      | none => .ran engaged outcome.1 outcome.2 none

/-! ## Archive encoders and parsing lemmas -/

/-- Encode one 12-byte slot record `(slot_id, start, length)`. -/
def encRecord (r : Nat × Nat × Nat) : List Nat :=
  u32le r.1 ++ u32le r.2.1 ++ u32le r.2.2

/-- Encode a slot table (without its terminator). -/
def encTable : List (Nat × Nat × Nat) → List Nat
  | [] => []
  | r :: rs => encRecord r ++ encTable rs

/-- The 12-byte zero terminator record closing a v2 slot table. -/
def term12 : List Nat := [0, 0, 0, 0, 0, 0, 0, 0, 0, 0, 0, 0]

/-- The chunk dict a well-formed table parse produces: every record
contributes the bytes at its own `start`/`length` in the whole file. -/
def chunksOf (raw : List Nat) (chunks : List (Nat × List Nat)) :
    List (Nat × Nat × Nat) → List (Nat × List Nat)
  | [] => chunks
  | r :: rs => chunksOf raw (dictSet chunks r.1 ((raw.drop r.2.1).take r.2.2)) rs

/-- Whether some record's slot id deviates from the expected ascending
sequence starting at `e`. -/
def anyMismatch : Nat → List (Nat × Nat × Nat) → Bool
  | _, [] => false
  | e, r :: rs => decide (¬ r.1 = e) || anyMismatch (e + 1) rs

lemma decodeU32_u32le {n : Nat} (h : n < 4294967296) :
    decodeU32 (n % 256) (n / 256 % 256) (n / 65536 % 256) (n / 16777216 % 256) = n := by
  unfold decodeU32
  omega

lemma isPrefixOf_append (p rest : List Nat) : p.isPrefixOf (p ++ rest) = true := by
  induction p with
  | nil => simp [List.isPrefixOf]
  | cons a t ih => simpa [List.isPrefixOf] using ih

/-- Truncated table region: fewer than 12 bytes remain and the loop has
iterations left, so `struct.unpack` raises `struct.error`. -/
lemma parseSlots_short (raw rem : List Nat) (fuel expected : Nat) (he : Bool)
    (chunks : List (Nat × List Nat)) (ctx : Context)
    (hf : ¬ fuel = 0) (hlen : rem.length < 12) :
    parseSlots raw rem fuel expected he chunks ctx = .error (.structError, ctx) := by
  rcases rem with _ | ⟨a0, _ | ⟨a1, _ | ⟨a2, _ | ⟨a3, _ | ⟨a4, _ | ⟨a5, _ | ⟨a6,
    _ | ⟨a7, _ | ⟨a8, _ | ⟨a9, _ | ⟨a10, _ | ⟨a11, rest⟩⟩⟩⟩⟩⟩⟩⟩⟩⟩⟩⟩ <;>
    simp [parseSlots, hf] at * <;> omega

/-- The central slot-table lemma: on a well-encoded table followed by
the zero terminator, the loop returns every record's chunk (cut by the
record's own offset and length), and appends the mismatch warning to
the log exactly once if any slot id deviates from the expected
ascending sequence (never more than once), and not at all otherwise. -/
lemma parseSlots_encTable (raw : List Nat) (rs : List (Nat × Nat × Nat))
    (tailB : List Nat) :
    ∀ (fuel expected : Nat) (he : Bool) (chunks : List (Nat × List Nat)) (ctx : Context),
    (∀ r ∈ rs, ¬ r.1 = 0 ∧ r.1 < 4294967296 ∧ r.2.1 < 4294967296 ∧ r.2.2 < 4294967296) →
    rs.length < fuel →
    parseSlots raw (encTable rs ++ term12 ++ tailB) fuel expected he chunks ctx =
      .ok (chunksOf raw chunks rs,
        if he = false ∧ anyMismatch expected rs = true then ctx.log slotWarn else ctx) := by
  induction rs with
  | nil =>
    intro fuel expected he chunks ctx _ hfuel
    have hf : ¬ fuel = 0 := by omega
    simp [encTable, term12, parseSlots, hf, decodeU32, chunksOf, anyMismatch]
  | cons r rs ih =>
    intro fuel expected he chunks ctx hvalid hfuel
    have hr := hvalid r (List.mem_cons_self r rs)
    have hf : ¬ fuel = 0 := by omega
    have hslot : decodeU32 (r.1 % 256) (r.1 / 256 % 256) (r.1 / 65536 % 256)
        (r.1 / 16777216 % 256) = r.1 := decodeU32_u32le hr.2.1
    have hstart : decodeU32 (r.2.1 % 256) (r.2.1 / 256 % 256) (r.2.1 / 65536 % 256)
        (r.2.1 / 16777216 % 256) = r.2.1 := decodeU32_u32le hr.2.2.1
    have hlength : decodeU32 (r.2.2 % 256) (r.2.2 / 256 % 256) (r.2.2 / 65536 % 256)
        (r.2.2 / 16777216 % 256) = r.2.2 := decodeU32_u32le hr.2.2.2
    have htail := ih (fuel - 1) (expected + 1)
      (he || decide (¬ r.1 = expected))
      (dictSet chunks r.1 ((raw.drop r.2.1).take r.2.2))
      (if ¬ r.1 = expected ∧ he = false then ctx.log slotWarn else ctx)
      (fun q hq => hvalid q (List.mem_cons_of_mem r hq))
      (by simpa using Nat.lt_sub_of_add_lt (by simpa [Nat.add_comm] using hfuel))
    simp only [encTable, encRecord, u32le, List.cons_append, List.nil_append,
      List.append_assoc] at htail ⊢
    rw [parseSlots]
    simp only [hf, if_false, hslot, hstart, hlength]
    rw [if_neg hr.1]
    rw [htail]
    simp only [chunksOf, anyMismatch]
    by_cases hhe : he = false
    · subst hhe
      by_cases hm : r.1 = expected
      · simp [hm]
      · simp [hm]
    · have : he = true := by revert hhe; cases he <;> simp
      subst this
      simp

/-! ## Dict lemmas -/

lemma dictGet_nil {α β : Type} [DecidableEq α] (k : α) :
    dictGet ([] : List (α × β)) k = none := rfl

lemma dictGet_cons {α β : Type} [DecidableEq α] (p : α × β) (d : List (α × β)) (k : α) :
    dictGet (p :: d) k = if p.1 = k then some p.2 else dictGet d k := by
  by_cases hp : p.1 = k <;> simp [dictGet, List.find?, hp]

lemma dictGet_eq_none_of_not_mem {α β : Type} [DecidableEq α]
    (d : List (α × β)) (k : α) (h : k ∉ d.map Prod.fst) :
    dictGet d k = none := by
  induction d with
  | nil => rfl
  | cons p d ih =>
    rw [List.map_cons] at h
    have hp : ¬ p.1 = k := fun hk => h (by simp [hk])
    rw [dictGet_cons, if_neg hp]
    exact ih (fun hm => h (List.mem_cons_of_mem _ hm))

lemma dictGet_map_self {α β : Type} [DecidableEq α]
    (d : List (α × β)) (k : α) (v : β)
    (hany : d.any (fun q => decide (q.1 = k)) = true) :
    dictGet (d.map (fun q => if q.1 = k then (k, v) else q)) k = some v := by
  induction d with
  | nil => simp at hany
  | cons p d ih =>
    rw [List.map_cons, dictGet_cons]
    by_cases hp : p.1 = k
    · simp [hp]
    · rw [if_neg hp]
      simp only [if_neg hp]
      rw [List.any_cons] at hany
      have : d.any (fun q => decide (q.1 = k)) = true := by
        rcases Bool.or_eq_true_iff.mp hany with h | h
        · exact absurd (of_decide_eq_true h) hp
        · exact h
      exact ih this

lemma dictGet_append_self_of_not_found {α β : Type} [DecidableEq α]
    (d : List (α × β)) (k : α) (v : β)
    (hnone : dictGet d k = none) :
    dictGet (d ++ [(k, v)]) k = some v := by
  induction d with
  | nil => simp [dictGet, List.find?]
  | cons p d ih =>
    rw [dictGet_cons] at hnone
    by_cases hp : p.1 = k
    · rw [if_pos hp] at hnone; exact absurd hnone (by simp)
    · rw [if_neg hp] at hnone
      rw [List.cons_append, dictGet_cons, if_neg hp]
      exact ih hnone

lemma dictGet_append_ne {α β : Type} [DecidableEq α]
    (d : List (α × β)) (k k' : α) (v : β) (h : ¬ k' = k) :
    dictGet (d ++ [(k, v)]) k' = dictGet d k' := by
  induction d with
  | nil =>
    have : ¬ k = k' := fun hk => h hk.symm
    simp [dictGet, List.find?, this]
  | cons p d ih =>
    rw [List.cons_append, dictGet_cons, dictGet_cons]
    by_cases hp : p.1 = k' <;> simp [hp, ih]

lemma dictGet_map_ne {α β : Type} [DecidableEq α]
    (d : List (α × β)) (k k' : α) (v : β) (h : ¬ k' = k) :
    dictGet (d.map (fun q => if q.1 = k then (k, v) else q)) k' = dictGet d k' := by
  induction d with
  | nil => rfl
  | cons p d ih =>
    rw [List.map_cons, dictGet_cons, dictGet_cons]
    by_cases hp : p.1 = k
    · have h1 : ¬ (k = k') := fun hkk => h hkk.symm
      have h2 : ¬ (p.1 = k') := by rw [hp]; exact h1
      simp only [if_pos hp]
      rw [if_neg h1, if_neg h2, ih]
    · simp only [if_neg hp]
      by_cases hp' : p.1 = k'
      · rw [if_pos hp', if_pos hp']
      · rw [if_neg hp', if_neg hp', ih]

lemma dictGet_dictSet_self {α β : Type} [DecidableEq α]
    (d : List (α × β)) (k : α) (v : β) :
    dictGet (dictSet d k v) k = some v := by
  unfold dictSet
  by_cases hany : d.any (fun q => decide (q.1 = k)) = true
  · rw [if_pos hany]
    exact dictGet_map_self d k v hany
  · rw [if_neg hany]
    refine dictGet_append_self_of_not_found d k v ?_
    refine dictGet_eq_none_of_not_mem d k ?_
    intro hm
    apply hany
    rw [List.any_eq_true]
    rcases List.mem_map.mp hm with ⟨q, hq, hqk⟩
    exact ⟨q, hq, by simp [hqk]⟩

lemma dictGet_dictSet_ne {α β : Type} [DecidableEq α]
    (d : List (α × β)) (k k' : α) (v : β) (h : ¬ k' = k) :
    dictGet (dictSet d k v) k' = dictGet d k' := by
  unfold dictSet
  by_cases hany : d.any (fun q => decide (q.1 = k)) = true
  · rw [if_pos hany]
    exact dictGet_map_ne d k k' v h
  · rw [if_neg hany]
    exact dictGet_append_ne d k k' v h

lemma dictGet_dictUpdate {α β : Type} [DecidableEq α]
    (e : List (α × β)) (hnd : (e.map Prod.fst).Nodup) (d : List (α × β)) (k : α) :
    dictGet (dictUpdate d e) k =
      match dictGet e k with
      | some v => some v
      | none => dictGet d k := by
  induction e generalizing d with
  | nil => simp [dictUpdate, dictGet, List.find?]
  | cons p e ih =>
    rw [List.map_cons, List.nodup_cons] at hnd
    have step : dictUpdate d (p :: e) = dictUpdate (dictSet d p.1 p.2) e := rfl
    rw [step, ih hnd.2]
    by_cases hk : k = p.1
    · have he : dictGet e k = none := by
        rw [hk]; exact dictGet_eq_none_of_not_mem e p.1 hnd.1
      rw [he, dictGet_cons, if_pos hk.symm, hk, dictGet_dictSet_self]
    · have hk' : ¬ p.1 = k := fun hkk => hk hkk.symm
      rw [dictGet_dictSet_ne d p.1 k p.2 hk, dictGet_cons, if_neg hk']

/-! ## Supporting lemmas about `main`'s pieces -/

lemma insertDesc_length (fs : FS) (x : PyPath) (l : List PyPath) :
    (insertDesc fs x l).length = l.length + 1 := by
  induction l with
  | nil => rfl
  | cons y ys ih =>
    by_cases h : fileSize fs y < fileSize fs x <;> simp [insertDesc, h, ih]

lemma sortBySizeDesc_length (fs : FS) (l : List PyPath) :
    (sortBySizeDesc fs l).length = l.length := by
  induction l with
  | nil => rfl
  | cons y ys ih =>
    show (insertDesc fs y (sortBySizeDesc fs ys)).length = ys.length + 1
    rw [insertDesc_length, ih]

/-- In translation-extraction mode the worker always fails: the inner
`read_ast_from_file(in_file)` call is missing its `context` argument
(`TypeError`), or the open itself fails; either exception is not a
`BadRpycException`, so the worker records state `fail`, leaves the
result value unset, and leaves the filesystem untouched. -/
lemma worker_wtf_fails (ext : Externals) (args : Args) (fn : PyPath) (fs : FS)
    (p : PyPath) (hw : args.write_translation_file = some p) :
    ((worker ext args fn fs).1).state = some "fail"
    ∧ ((worker ext args fn fs).1).value = none
    ∧ (worker ext args fn fs).2 = fs := by
  unfold worker worker_inner extract_translations
  rw [hw]
  cases h : fs.read fn <;>
    simp [h, Context.set_state, Context.log, Context.set_result]

lemma runWorkers_wtf (ext : Externals) (args : Args) (p : PyPath)
    (hw : args.write_translation_file = some p) :
    ∀ (wl : List PyPath) (fs : FS),
      (runWorkers ext args fs wl).2 = fs ∧
      ∀ c ∈ (runWorkers ext args fs wl).1,
        c.state = some "fail" ∧ c.value = none := by
  intro wl
  induction wl with
  | nil => intro fs; exact ⟨rfl, by simp [runWorkers]⟩
  | cons fn rest ih =>
    intro fs
    have hw1 := worker_wtf_fails ext args fn fs p hw
    have ih1 := ih (worker ext args fn fs).2
    constructor
    · show (runWorkers ext args (worker ext args fn fs).2 rest).2 = fs
      rw [ih1.1, hw1.2.2]
    · intro c hc
      rcases List.mem_cons.mp hc with hc | hc
      · subst hc; exact ⟨hw1.1, hw1.2.1⟩
      · exact ih1.2 c hc

lemma mergeResults_aux_none (ext : Externals) (results : List Context)
    (h : ∀ c ∈ results, c.value = none) (acc : Dict × Dict) :
    results.foldl
      (fun acc r =>
        match r.value with
        | none => acc
        | some b => (dictUpdate acc.1 (ext.pickle_loads b.1), dictUpdate acc.2 b.2))
      acc = acc := by
  induction results generalizing acc with
  | nil => rfl
  | cons c cs ih =>
    rw [List.foldl_cons, h c (List.mem_cons_self c cs)]
    exact ih (fun q hq => h q (List.mem_cons_of_mem c hq)) acc

lemma mergeResults_none (ext : Externals) (results : List Context)
    (h : ∀ c ∈ results, c.value = none) :
    mergeResults ext results = ([], []) :=
  mergeResults_aux_none ext results h ([], [])

/-! ## Concrete fixtures for witnesses and counterexamples -/

/-- A benign instantiation of the external collaborators: identity
decompression, a loader that succeeds with an AST tagged by the payload
length. -/
def extTest : Externals where
  decompress := fun l => some l
  pickle_detect_python2 := fun _ => false
  pickle_safe_loads := fun l => .ok (0, ⟨l.length⟩)
  deobfuscate_read := fun _ ctx => .error (.badRpyc "deob", ctx)
  astdump_pprint := fun _ _ _ => .ok []
  decompiler_pprint := fun _ _ => .ok ([], [])
  pickle_loads := fun _ => []
  pickle_loads_triple := fun _ => (none, [], [])
  pickle_safe_dump_triple := fun _ => []

/-- Externals whose safe loader rejects every payload with a
`DecodeErr`. -/
def extDecodeFail : Externals :=
  { extTest with pickle_safe_loads := fun _ => .error .truncated }

/-- Plain decompile-mode arguments (the defaults, plus `--clobber`). -/
def argsDecompile : Args where
  clobber := true
  try_harder := false
  dump := false
  processes := 1
  translation_file := none
  write_translation_file := none
  language := none
  comparable := false
  no_pyexpr := false
  init_offset := true
  sl_custom_names := none

/-- A well-formed two-slot v2 archive: magic, table `{1, 2}`, zero
terminator, then the two payloads laid out back to back (the table is
10+36 = 46 bytes from the start of the file). -/
def mkArchive2 (x y : List Nat) : List Nat :=
  magic ++ encTable [(1, 46, x.length), (2, 46 + x.length, y.length)] ++ term12 ++ x ++ y

def fileA : PyPath := ⟨"script", ".rpyc"⟩

def fsC1 : FS := ⟨[(fileA, mkArchive2 [1, 2, 3] [9, 9])]⟩

def fsC4 : FS := ⟨[(fileA, magic ++ [1, 2, 3])]⟩

def fsSkip : FS := ⟨[(⟨"script", ".rpy"⟩, [1, 2])]⟩

def fsC3 : FS := ⟨[(fileA, magic ++ term12)]⟩

/-! ## Claim theorems -/

/-- C5: when the derived output path already exists and `overwrite` is
false, `decompile_rpyc` logs, sets state `skip` and returns before the
input file is opened or any decoding work happens (the outcome is the
same for every behaviour of the external decoders, which do not appear
in the result), and the filesystem — in particular the existing output
file — is returned byte-for-byte unmodified. -/
theorem c5_skip_before_decode (ext : Externals) (input : PyPath) (ctx : Context)
    (fs : FS) (try_harder dump comparable no_pyexpr init_offset : Bool)
    (translator : Option (Option String × Dict × Dict))
    (sl : Option (List (String × String))) (extn : String)
    (hext : output_ext dump input.suffix = .ok extn)
    (hexists : fs.exists_file (input.with_suffix extn) = true) :
    decompile_rpyc ext input ctx fs false try_harder dump comparable no_pyexpr
        translator init_offset sl =
      .ok
        (((ctx.log (decompilingMsg input (input.with_suffix extn))).log skipMsg).set_state
            "skip",
          fs) := by
  unfold decompile_rpyc
  rw [hext]
  simp [hexists]

/-- Witness for C5: a `.rpyc` input whose `.rpy` output already exists
is skipped with the filesystem unchanged. -/
theorem c5_witness :
    decompile_rpyc extTest fileA {} fsSkip false false false false false none true none =
      .ok
        (((({} : Context).log (decompilingMsg fileA (fileA.with_suffix ".rpy"))).log
              skipMsg).set_state "skip",
          fsSkip) :=
  c5_skip_before_decode extTest fileA {} fsSkip false false false false true none none
    ".rpy" rfl rfl

/-- The error-header line the relevant `except` clause logs: the
header-read message for `BadRpycException`, the decompiling message for
every other exception. -/
def errHeaderMsg (e : PyErr) (fn : PyPath) : String :=
  match e with
  | .badRpyc _ => headerErrMsg fn
  | _ => decompErrMsg fn

/-- C3: every exception from the per-file pipeline is caught by
`worker`: the context comes back normally (never a propagated
exception) with a terminal state that is `spoofed` or `fail`, with the
failure header and the formatted traceback appended to the log the
pipeline had built so far, together with the pipeline's filesystem. -/
theorem c3_worker_contains_failures (ext : Externals) (args : Args) (fn : PyPath)
    (fs : FS) (e : PyErr) (c : Context) (f : FS)
    (h : worker_inner ext args fn fs = .error (e, c, f)) :
    ((worker ext args fn fs).1.state = some "spoofed" ∨
      (worker ext args fn fs).1.state = some "fail")
    ∧ (worker ext args fn fs).1.log_contents =
        c.log_contents ++ [errHeaderMsg e fn, format_exc e]
    ∧ (worker ext args fn fs).2 = f := by
  cases e <;>
    (unfold worker; rw [h]; simp [errHeaderMsg, Context.set_state, Context.log])

/-- Witness for C3: a v2 container without slot 1 raises
`BadRpycException`, which the worker converts into state `spoofed` with
the detail logged. -/
theorem c3_witness :
    ((worker extTest argsDecompile fileA fsC3).1.state = some "spoofed" ∨
      (worker extTest argsDecompile fileA fsC3).1.state = some "fail")
    ∧ (worker extTest argsDecompile fileA fsC3).1.log_contents =
        (({} : Context).log (decompilingMsg fileA (fileA.with_suffix ".rpy"))).log_contents ++
          [errHeaderMsg (.badRpyc slotNotFoundMsg) fileA,
            format_exc (.badRpyc slotNotFoundMsg)]
    ∧ (worker extTest argsDecompile fileA fsC3).2 = fsC3 := by
  have h := c3_worker_contains_failures extTest argsDecompile fileA fsC3
    (.badRpyc slotNotFoundMsg)
    (({} : Context).log (decompilingMsg fileA (fileA.with_suffix ".rpy"))) fsC3 rfl
  exact ⟨h.1, h.2.1, h.2.2⟩

/-- C1 (amended): a `DecodeErr` raised by `pickle_safe_loads` during the
initial AST construction is not a `BadRpycException`, so `worker`
records terminal state `fail` — not `spoofed`, which is reserved for
malformed containers. -/
theorem c1_decode_error_state_fail (ext : Externals) (args : Args) (fn : PyPath)
    (fs : FS) (d : DecodeErr) (c : Context) (f : FS)
    (h : worker_inner ext args fn fs = .error (.decodeError d, c, f)) :
    ((worker ext args fn fs).1).state = some "fail"
    ∧ ¬ ((worker ext args fn fs).1).state = some "spoofed" := by
  have hst : ((worker ext args fn fs).1).state = some "fail" := by
    unfold worker
    rw [h]
    simp [Context.set_state, Context.log]
  refine ⟨hst, ?_⟩
  rw [hst]
  intro hcon
  exact absurd (Option.some.inj hcon) (by decide)

/-- C1 counterexample: a file whose v2 container parses fine (slots 1
and 2 present, zlib inflates) but whose payload fails safe
deserialization ends in state `fail`, not `spoofed` as the claim
states. -/
theorem c1_counterexample :
    read_ast_from_file extDecodeFail (mkArchive2 [1, 2, 3] [9, 9]) {} =
      .error (.decodeError .truncated, {})
    ∧ ((worker extDecodeFail argsDecompile fileA fsC1).1).state = some "fail"
    ∧ ¬ ((worker extDecodeFail argsDecompile fileA fsC1).1).state = some "spoofed" :=
  ⟨rfl, rfl, by decide⟩

/-- Witness for the amended C1 at the concrete failing archive. -/
theorem c1_witness :
    ((worker extDecodeFail argsDecompile fileA fsC1).1).state = some "fail"
    ∧ ¬ ((worker extDecodeFail argsDecompile fileA fsC1).1).state = some "spoofed" :=
  c1_decode_error_state_fail extDecodeFail argsDecompile fileA fsC1 .truncated _ _ rfl

/-- C4 (amended): a truncated v2 slot table (the file ends before a
complete 12-byte record or a zero terminator) raises `struct.error`,
which is not a `BadRpycException`; `worker` therefore records state
`fail`, not `spoofed` as for `MalformedArchive` failures. -/
theorem c4_truncated_table_state_fail (ext : Externals) (args : Args) (fn : PyPath)
    (fs : FS) (raw rest : List Nat)
    (hwt : args.write_translation_file = none) (hth : args.try_harder = false)
    (hdump : args.dump = false) (hsuf : fn.suffix = ".rpyc")
    (hclob : args.clobber = true) (hread : fs.read fn = some raw)
    (hraw : raw = magic ++ rest) (hlen : rest.length < 12) :
    ((worker ext args fn fs).1).state = some "fail"
    ∧ ¬ ((worker ext args fn fs).1).state = some "spoofed" := by
  subst hraw
  have hast : ∀ ctx : Context,
      read_ast_from_file ext (magic ++ rest) ctx = .error (.structError, ctx) := by
    intro ctx
    have hdrop : (magic ++ rest).drop 10 = rest := by
      have hm : (10 : Nat) = magic.length := rfl
      rw [hm, List.drop_left]
    unfold read_ast_from_file
    rw [isPrefixOf_append magic rest, hdrop,
      parseSlots_short (magic ++ rest) rest 4294967294 1 false [] ctx (by decide) hlen]
    rfl
  have hout : output_ext args.dump fn.suffix = .ok ".rpy" := by
    rw [hdump, hsuf]
    rfl
  have hdec : ∀ tr, decompile_rpyc ext fn {} fs args.clobber args.try_harder args.dump
      args.comparable args.no_pyexpr tr args.init_offset args.sl_custom_names =
      .error (.structError,
        ({} : Context).log (decompilingMsg fn (fn.with_suffix ".rpy")), fs) := by
    intro tr
    unfold decompile_rpyc
    rw [hout, hclob, hread, hth]
    simp only [Bool.not_true, Bool.false_and, Bool.false_eq_true, if_false, hast]
  have hwi : worker_inner ext args fn fs =
      .error (.structError,
        ({} : Context).log (decompilingMsg fn (fn.with_suffix ".rpy")), fs) := by
    simp only [worker_inner, hwt, hdec]
  have hst : ((worker ext args fn fs).1).state = some "fail" := by
    unfold worker
    rw [hwi]
    simp [Context.set_state, Context.log]
  refine ⟨hst, ?_⟩
  rw [hst]
  intro hcon
  exact absurd (Option.some.inj hcon) (by decide)

/-- C4 counterexample: a v2 file whose slot table is cut short ends in
state `fail` (via `struct.error`), not `spoofed` as the claim states. -/
theorem c4_counterexample :
    read_ast_from_file extTest (magic ++ [1, 2, 3]) {} = .error (.structError, {})
    ∧ ((worker extTest argsDecompile fileA fsC4).1).state = some "fail"
    ∧ ¬ ((worker extTest argsDecompile fileA fsC4).1).state = some "spoofed" :=
  ⟨rfl, rfl, by decide⟩

/-- Witness for the amended C4 at the concrete truncated archive. -/
theorem c4_witness :
    ((worker extTest argsDecompile fileA fsC4).1).state = some "fail"
    ∧ ¬ ((worker extTest argsDecompile fileA fsC4).1).state = some "spoofed" :=
  c4_truncated_table_state_fail extTest argsDecompile fileA fsC4
    (magic ++ [1, 2, 3]) [1, 2, 3] rfl rfl rfl rfl rfl rfl rfl (by decide)

/-- C8: each invalid flag combination (`comparable` or `no_pyexpr`
without `dump`; translation read or write combined with `try_harder` or
`dump`) and a pre-existing output translation file without `clobber`
aborts the whole run with an argument error — for every externals
behaviour and every worklist, hence before any input file is opened or
processed. -/
theorem c8_preflight_aborts (args : Args) (fs : FS)
    (h : ((args.comparable = true ∨ args.no_pyexpr = true) ∧ args.dump = false)
       ∨ ((args.try_harder = true ∨ args.dump = true) ∧
            (args.write_translation_file.isSome = true ∨
              args.translation_file.isSome = true))
       ∨ (args.write_translation_file.isSome = true ∧ args.clobber = false ∧
            wtfExists args fs = true)) :
    ∀ (ext : Externals) (wl : List PyPath),
      (main ext args fs wl).is_arg_error = true := by
  intro ext wl
  have hsome : ∃ k, preflight args fs = some k := by
    unfold preflight
    split_ifs with h1 h2 h3
    · exact ⟨_, rfl⟩
    · exact ⟨_, rfl⟩
    · exact ⟨_, rfl⟩
    · exfalso
      simp only [Bool.and_eq_true, Bool.or_eq_true, Bool.not_eq_true'] at h1 h2 h3
      tauto
  obtain ⟨k, hk⟩ := hsome
  unfold main
  rw [hk]
  rfl

def argsBadCombo : Args := { argsDecompile with comparable := true }

/-- Witness for C8: `--comparable` without `--dump` aborts the run. -/
theorem c8_witness : (main extTest argsBadCombo fsC1 [fileA]).is_arg_error = true :=
  c8_preflight_aborts argsBadCombo fsC1 (Or.inl ⟨Or.inl rfl, rfl⟩) extTest [fileA]

/-- C9: when pre-flight validation passes and the worklist is nonempty,
the worker pool is engaged iff the configured process count exceeds 1
and the worklist holds more than 5 files; otherwise the files are
handled by the sequential in-thread map. -/
theorem c9_pool_engaged_iff (ext : Externals) (args : Args) (fs : FS)
    (wl : List PyPath) (hp : preflight args fs = none) (hne : ¬ wl = []) :
    ((main ext args fs wl).pool_used = true ↔
      (1 < args.processes ∧ 5 < wl.length)) := by
  have hempty : wl.isEmpty = false := by
    cases wl with
    | nil => exact absurd rfl hne
    | cons a l => rfl
  cases htf : args.translation_file <;>
    cases hwt : args.write_translation_file <;>
      simp only [main, hp, hempty, htf, hwt, MainOutcome.pool_used,
        Bool.false_eq_true, if_false] <;>
      rw [sortBySizeDesc_length] <;>
      simp [Bool.and_eq_true, decide_eq_true_iff]

def args9 : Args := { argsDecompile with processes := 2 }

def wl9 : List PyPath := [fileA, fileA, fileA, fileA, fileA, fileA]

/-- Witness for C9: 2 processes and 6 files engage the pool. -/
theorem c9_witness : (main extTest args9 fsC1 wl9).pool_used = true :=
  (c9_pool_engaged_iff extTest args9 fsC1 wl9 rfl (by decide)).mpr
    ⟨by decide, by decide⟩

/-- C2: in translation-extraction mode the inner
`read_ast_from_file(in_file)` call omits the required `context`
argument, so every file that can be opened raises `TypeError` before
any AST is read; consequently every worker ends in state `fail` with no
result value, and the combined translation file holds only an empty
dialogue mapping and an empty strings collection. -/
theorem c2_translation_mode_always_fails (ext : Externals) (args : Args) (fs : FS)
    (wl : List PyPath) (p : PyPath)
    (hw : args.write_translation_file = some p)
    (hp : preflight args fs = none) (hne : ¬ wl = []) :
    (∀ (fn : PyPath) (ctx : Context) (fs0 : FS) (raw : List Nat),
        fs0.read fn = some raw →
        extract_translations ext fn args.language ctx fs0 =
          .error (.typeError, ctx.log (extractingMsg fn), fs0))
    ∧ (∀ c ∈ (main ext args fs wl).contexts, c.state = some "fail" ∧ c.value = none)
    ∧ (main ext args fs wl).translation_out = some (args.language, [], []) := by
  have hempty : wl.isEmpty = false := by
    cases wl with
    | nil => exact absurd rfl hne
    | cons a l => rfl
  refine ⟨?_, ?_⟩
  · intro fn ctx fs0 raw h
    unfold extract_translations
    rw [h]
  cases htf : args.translation_file with
  | none =>
    have hrw := runWorkers_wtf ext args p hw (sortBySizeDesc fs wl) fs
    constructor
    · intro c hc
      simp only [main, hp, hempty, htf, hw, MainOutcome.contexts,
        Bool.false_eq_true, if_false] at hc
      exact hrw.2 c hc
    · simp only [main, hp, hempty, htf, hw, MainOutcome.translation_out,
        Bool.false_eq_true, if_false]
      rw [mergeResults_none ext _ (fun c hc => (hrw.2 c hc).2)]
  | some tf =>
    have hrw := runWorkers_wtf ext
      { args with
        translation_file := some tf
        write_translation_file := some p
        translations := (fs.read tf).getD [] } p rfl (sortBySizeDesc fs wl) fs
    constructor
    · intro c hc
      simp only [main, hp, hempty, htf, hw, MainOutcome.contexts,
        Bool.false_eq_true, if_false] at hc
      exact hrw.2 c hc
    · simp only [main, hp, hempty, htf, hw, MainOutcome.translation_out,
        Bool.false_eq_true, if_false]
      rw [mergeResults_none ext _ (fun c hc => (hrw.2 c hc).2)]

def argsT : Args :=
  { argsDecompile with
    write_translation_file := some ⟨"out", ".txt"⟩
    language := some "en" }

/-- Witness for C2 at concrete inputs: the extraction call raises
`TypeError` on an openable file, and the merged translation output of a
run over one file is empty. -/
theorem c2_witness :
    extract_translations extTest fileA argsT.language {} fsC1 =
      .error (.typeError, ({} : Context).log (extractingMsg fileA), fsC1)
    ∧ (main extTest argsT fsC1 [fileA]).translation_out = some (argsT.language, [], []) :=
  ⟨(c2_translation_mode_always_fails extTest argsT fsC1 [fileA] ⟨"out", ".txt"⟩
        rfl rfl (by decide)).1 fileA {} fsC1 (mkArchive2 [1, 2, 3] [9, 9]) rfl,
   (c2_translation_mode_always_fails extTest argsT fsC1 [fileA] ⟨"out", ".txt"⟩
        rfl rfl (by decide)).2.2⟩

/-- C10: on a v2 slot table whose ids deviate from the expected
ascending sequence 1,2,3,..., the mismatch warning is appended to the
log exactly once, no matter how many records mismatch, and parsing
still walks the whole table to the zero terminator, cutting every chunk
by the record's own offset and length (invoked exactly as
`read_ast_from_file` invokes the loop: at offset 10, expected slot 1,
fresh warning flag and chunk dict). -/
theorem c10_mismatch_warning_once (raw : List Nat) (rs : List (Nat × Nat × Nat))
    (tailB : List Nat) (ctx : Context)
    (hvalid : ∀ r ∈ rs, ¬ r.1 = 0 ∧ r.1 < 4294967296 ∧ r.2.1 < 4294967296 ∧
        r.2.2 < 4294967296)
    (hlen : rs.length < 4294967294)
    (hmis : anyMismatch 1 rs = true) :
    parseSlots raw (encTable rs ++ term12 ++ tailB) 0xFFFFFFFE 1 false [] ctx =
      .ok (chunksOf raw [] rs, ctx.log slotWarn) := by
  rw [parseSlots_encTable raw rs tailB 0xFFFFFFFE 1 false [] ctx hvalid hlen]
  simp [hmis]

def rsMis : List (Nat × Nat × Nat) := [(2, 0, 1), (9, 50, 2)]

/-- Witness for C10: a table whose both slot ids (2 then 9) deviate
from the expected 1, 2 still parses fully with a single warning. -/
theorem c10_witness :
    parseSlots [7, 7, 7] (encTable rsMis ++ term12 ++ [1, 2]) 0xFFFFFFFE 1 false [] {} =
      .ok (chunksOf [7, 7, 7] [] rsMis, ({} : Context).log slotWarn) :=
  c10_mismatch_warning_once [7, 7, 7] rsMis [1, 2] {} (by decide) (by decide) (by decide)

/-- C6: for a well-formed v2 archive with slots `{1: X, 2: Y}`, the
reader selects exactly slot 1's byte range and returns the AST decoded
from X's decompressed content — for every content of Y. -/
theorem c6_slot_one_selected (ext : Externals) (x y : List Nat) (ctx : Context)
    (d : Nat) (ast : Ast) (inflated : List Nat)
    (hfit : 46 + x.length + y.length < 4294967296)
    (hdec : ext.decompress x = some inflated)
    (hload : ext.pickle_safe_loads inflated = .ok (d, ast)) :
    read_ast_from_file ext (mkArchive2 x y) ctx =
      .ok (ast,
        if ext.pickle_detect_python2 inflated then ctx.log (legacyWarn "7")
        else ctx) := by
  have hassoc : mkArchive2 x y =
      magic ++ (encTable [(1, 46, x.length), (2, 46 + x.length, y.length)] ++
        term12 ++ (x ++ y)) := by
    simp [mkArchive2, List.append_assoc]
  have hpre : magic.isPrefixOf (mkArchive2 x y) = true := by
    rw [hassoc]; exact isPrefixOf_append _ _
  have hdrop10 : (mkArchive2 x y).drop 10 =
      encTable [(1, 46, x.length), (2, 46 + x.length, y.length)] ++ term12 ++
        (x ++ y) := by
    rw [hassoc]
    have hm : (10 : Nat) = magic.length := rfl
    rw [hm, List.drop_left]
  have hvalid : ∀ r ∈ [(1, 46, x.length), (2, 46 + x.length, y.length)],
      ¬ r.1 = 0 ∧ r.1 < 4294967296 ∧ r.2.1 < 4294967296 ∧ r.2.2 < 4294967296 := by
    intro r hr
    simp only [List.mem_cons, List.not_mem_nil, or_false] at hr
    rcases hr with rfl | rfl
    · exact ⟨show ¬ (1 : Nat) = 0 by norm_num, show (1 : Nat) < 4294967296 by norm_num,
        show (46 : Nat) < 4294967296 by norm_num, show x.length < 4294967296 by omega⟩
    · exact ⟨show ¬ (2 : Nat) = 0 by norm_num, show (2 : Nat) < 4294967296 by norm_num,
        show 46 + x.length < 4294967296 by omega, show y.length < 4294967296 by omega⟩
  have hparse := parseSlots_encTable (mkArchive2 x y)
    [(1, 46, x.length), (2, 46 + x.length, y.length)] (x ++ y)
    0xFFFFFFFE 1 false [] ctx hvalid (by norm_num)
  have hmm : anyMismatch 1 [(1, 46, x.length), (2, 46 + x.length, y.length)] = false := by
    simp [anyMismatch]
  have hpresplit : mkArchive2 x y =
      (magic ++ encTable [(1, 46, x.length), (2, 46 + x.length, y.length)] ++ term12) ++
        (x ++ y) := by
    simp [mkArchive2, List.append_assoc]
  have hlen46 : (magic ++ encTable [(1, 46, x.length), (2, 46 + x.length, y.length)] ++
      term12).length = 46 := by
    simp [magic, encTable, encRecord, u32le, term12]
  have hslice1 : ((mkArchive2 x y).drop 46).take x.length = x := by
    rw [hpresplit, List.drop_left' hlen46, List.take_left]
  have hchunks : dictGet (chunksOf (mkArchive2 x y) []
      [(1, 46, x.length), (2, 46 + x.length, y.length)]) 1 =
      some (((mkArchive2 x y).drop 46).take x.length) := by
    simp [chunksOf, dictSet, dictGet, List.find?]
  have hread : read_ast_from_file ext (mkArchive2 x y) ctx =
      decodePayload ext x false ctx := by
    unfold read_ast_from_file
    rw [hpre, hdrop10, hparse, hmm]
    simp only [Bool.false_eq_true, and_false, if_false, eq_self_iff_true, if_true]
    rw [hchunks, hslice1]
  rw [hread]
  simp only [decodePayload, hdec, hload, Bool.false_or, Bool.false_eq_true, if_false]

/-- Witness for C6: a concrete two-slot archive decodes slot 1's
payload `[5]`, ignoring slot 2's `[7, 8]`. -/
theorem c6_witness :
    read_ast_from_file extTest (mkArchive2 [5] [7, 8]) {} =
      .ok (⟨1⟩, ({} : Context)) :=
  c6_slot_one_selected extTest [5] [7, 8] {} 0 ⟨1⟩ [5] (by decide) rfl rfl

/-- C7: the translation merge is a mapping union applied in submission
order: a key present only in the earlier bundle keeps its value, and a
key present in the later bundle takes the later file's value
(last-writer-wins, not an error), for the dialogue mappings and the
strings collections alike. -/
theorem c7_merge_last_writer_wins (ext : Externals) (db1 db2 : List Nat)
    (d1 d2 s1 s2 : Dict) (r1 r2 : Context)
    (h1 : r1.value = some (db1, s1)) (h2 : r2.value = some (db2, s2))
    (hl1 : ext.pickle_loads db1 = d1) (hl2 : ext.pickle_loads db2 = d2)
    (hn1 : (d1.map Prod.fst).Nodup) (hn2 : (d2.map Prod.fst).Nodup)
    (hm1 : (s1.map Prod.fst).Nodup) (hm2 : (s2.map Prod.fst).Nodup)
    (k : String) :
    dictGet (mergeResults ext [r1, r2]).1 k =
      (match dictGet d2 k with
       | some v => some v
       | none => dictGet d1 k)
    ∧ dictGet (mergeResults ext [r1, r2]).2 k =
      (match dictGet s2 k with
       | some v => some v
       | none => dictGet s1 k) := by
  have hm : mergeResults ext [r1, r2] =
      (dictUpdate (dictUpdate [] d1) d2, dictUpdate (dictUpdate [] s1) s2) := by
    simp [mergeResults, h1, h2, hl1, hl2]
  rw [hm]
  constructor
  · rw [dictGet_dictUpdate d2 hn2, dictGet_dictUpdate d1 hn1]
    cases dictGet d2 k <;> cases dictGet d1 k <;> simp [dictGet, List.find?]
  · rw [dictGet_dictUpdate s2 hm2, dictGet_dictUpdate s1 hm1]
    cases dictGet s2 k <;> cases dictGet s1 k <;> simp [dictGet, List.find?]

def extMerge : Externals :=
  { extTest with
    pickle_loads := fun b =>
      if b = [1] then [("k1", "a")] else [("k1", "b"), ("k2", "c")] }

def rT1 : Context := { value := some ([1], [("s1", "x")]) }

def rT2 : Context := { value := some ([2], [("s1", "y"), ("s2", "z")]) }

/-- Witness for C7: merging two concrete bundles that share dialogue
key `k1` and strings key `s1` keeps the later file's values. -/
theorem c7_witness :
    dictGet (mergeResults extMerge [rT1, rT2]).1 "k1" =
      (match dictGet [("k1", "b"), ("k2", "c")] "k1" with
       | some v => some v
       | none => dictGet [("k1", "a")] "k1")
    ∧ dictGet (mergeResults extMerge [rT1, rT2]).2 "k1" =
      (match dictGet [("s1", "y"), ("s2", "z")] "k1" with
       | some v => some v
       | none => dictGet [("s1", "x")] "k1") :=
  c7_merge_last_writer_wins extMerge [1] [2] [("k1", "a")] [("k1", "b"), ("k2", "c")]
    [("s1", "x")] [("s1", "y"), ("s2", "z")] rT1 rT2 rfl rfl rfl rfl
    (by decide) (by decide) (by decide) (by decide) "k1"

end Unrpyc
